import Mathlib

/-!
# Verification of the PianoVisualizer note-classification core

Shallow embedding of `src/PianoVisualizer.{h,cpp}`.

Modelling conventions:
* C++ `float` arithmetic is modelled as exact real arithmetic (`ℝ`); float
  literals such as `0.05f` are the corresponding exact rationals.  No claim
  here depends on floating-point rounding.
* `int` values (MIDI notes, APU registers) are modelled as `ℤ`; channel
  indices into the fixed 5-element arrays are `Fin 5`.
* `std::deque<PianoRollNote> piano_roll_notes_` is a `List NoteEvent` whose
  head is the *oldest* (front) element; `push_back` appends, and the loop
  `while (size() > MAX_ROLL_NOTES) pop_front();` is `evictOld`, i.e.
  dropping `length - MAX_ROLL_NOTES` elements from the front.
* The null sample pointer of `updateFromAudio` is modelled with `Option`.
* `sample_rate : long` is modelled as `ℕ` (sample rates are non-negative);
  C++ integer division on it is `Nat` division.
-/

namespace PianoViz

/-- `NesNoteInfo` from PianoVisualizer.h (the per-channel ChannelState). -/
@[ext] structure ChannelState where
  channel : Fin 5
  midi_note : ℤ
  velocity : ℝ
  active : Bool

/-- `PianoRollNote` from PianoVisualizer.h (a history-log NoteEvent). -/
@[ext] structure NoteEvent where
  channel : Fin 5
  midi_note : ℤ
  velocity : ℝ
  start_time : ℝ
  duration : ℝ
  active : Bool

/-- The mutable state of `PianoVisualizer` relevant to note tracking:
`current_notes_`, `piano_roll_notes_`, `prev_midi_notes_`,
`note_start_times_`. -/
@[ext] structure PVState where
  current_notes : Fin 5 → ChannelState
  piano_roll_notes : List NoteEvent
  prev_midi_notes : Fin 5 → ℤ
  note_start_times : Fin 5 → ℝ

/-- `MAX_ROLL_NOTES` from PianoVisualizer.h. -/
def MAX_ROLL_NOTES : ℕ := 2000

/-- `NES_CPU_CLOCK` from PianoVisualizer.h (NTSC). -/
noncomputable def NES_CPU_CLOCK : ℝ := 1789773

/-- The velocity threshold `0.05f` used throughout the classifier code. -/
noncomputable def VEL_THRESHOLD : ℝ := 1 / 20

/-- `PianoVisualizer::reset()`: per-channel state `{i, 0, 0.0f, false}`,
`prev_midi_notes_[i] = -1`, `note_start_times_[i] = 0`, empty log.  The
constructor calls `reset()`, so this is also the initial state. -/
noncomputable def resetState : PVState where
  current_notes := fun i => ⟨i, 0, 0, false⟩
  piano_roll_notes := []
  prev_midi_notes := fun _ => -1
  note_start_times := fun _ => 0

/-- The "End previous note" loop of `processNoteChange`: find the first
event of this channel with the previous note that is still active, clear
its `active` flag and set `duration = current_time - start_time`
(the loop `break`s after the first hit). -/
noncomputable def closeFirst (l : List NoteEvent) (channel : Fin 5) (prev_note : ℤ)
    (current_time : ℝ) : List NoteEvent :=
  match l with
  | [] => []
  | e :: rest =>
    if e.channel = channel ∧ e.midi_note = prev_note ∧ e.active = true then
      { e with active := false, duration := current_time - e.start_time } :: rest
    else
      e :: closeFirst rest channel prev_note current_time

/-- The close phase of `processNoteChange`: run `closeFirst` exactly when
`prev_note >= 0 && prev_note != new_midi_note`. -/
noncomputable def closePhase (s : PVState) (channel : Fin 5) (new_midi_note : ℤ)
    (current_time : ℝ) : List NoteEvent :=
  if 0 ≤ s.prev_midi_notes channel ∧ s.prev_midi_notes channel ≠ new_midi_note then
    closeFirst s.piano_roll_notes channel (s.prev_midi_notes channel) current_time
  else
    s.piano_roll_notes

/-- `while (piano_roll_notes_.size() > MAX_ROLL_NOTES) pop_front();`:
drop the excess from the front (oldest first). -/
def evictOld (l : List NoteEvent) : List NoteEvent :=
  l.drop (l.length - MAX_ROLL_NOTES)

/-- `PianoVisualizer::processNoteChange` (PianoVisualizer.cpp:62-102). -/
noncomputable def processNoteChange (s : PVState) (channel : Fin 5)
    (new_midi_note : ℤ) (velocity current_time : ℝ) : PVState :=
  let prev_note := s.prev_midi_notes channel
  -- End previous note if it was playing
  let log1 := closePhase s channel new_midi_note current_time
  -- Start new note
  let opened := 0 ≤ new_midi_note ∧ VEL_THRESHOLD < velocity ∧ new_midi_note ≠ prev_note
  { piano_roll_notes :=
      if opened then
        evictOld (log1 ++ [⟨channel, new_midi_note, velocity, current_time, 0, true⟩])
      else log1
    note_start_times :=
      if opened then Function.update s.note_start_times channel current_time
      else s.note_start_times
    prev_midi_notes :=
      Function.update s.prev_midi_notes channel
        (if VEL_THRESHOLD < velocity then new_midi_note else -1)
    current_notes :=
      Function.update s.current_notes channel
        ⟨channel, new_midi_note, velocity,
          if 0 ≤ new_midi_note ∧ VEL_THRESHOLD < velocity then true else false⟩ }

/-- `std::round` (half away from zero), as applied to the float midi value
before the `static_cast<int>`. -/
noncomputable def cppRound (x : ℝ) : ℤ :=
  if 0 ≤ x then ⌊x + 1 / 2⌋ else ⌈x - 1 / 2⌉

/-- `PianoVisualizer::frequencyToMidi` (PianoVisualizer.cpp:27-34). -/
noncomputable def frequencyToMidi (frequency : ℝ) : ℤ :=
  if frequency ≤ 0 then -1
  else
    let note := cppRound (69 + 12 * Real.logb 2 (frequency / 440))
    if note < 0 ∨ 127 < note then -1 else note

/-- `PianoVisualizer::midiToFrequency` (PianoVisualizer.cpp:36-38). -/
noncomputable def midiToFrequency (midi_note : ℤ) : ℝ :=
  440 * (2 : ℝ) ^ (((midi_note : ℝ) - 69) / 12)

/-- The channel iteration order `for (int ch = 0; ch < NUM_CHANNELS; ++ch)`. -/
def channelOrder : List (Fin 5) := [0, 1, 2, 3, 4]

/-- `PianoVisualizer::updateFromFrequencies` (PianoVisualizer.cpp:104-114). -/
noncomputable def updateFromFrequencies (frequencies amplitudes : Fin 5 → ℝ)
    (current_time : ℝ) (s : PVState) : PVState :=
  channelOrder.foldl
    (fun st ch =>
      processNoteChange st ch (frequencyToMidi (frequencies ch)) (amplitudes ch)
        current_time)
    s

/-- The final range/velocity filter of `updateFromAPU`
(`midi_note >= 0 && midi_note <= 127 && velocity > 0.01f`, else note off). -/
noncomputable def apuFilter (mv : ℤ × ℝ) : ℤ × ℝ :=
  if 0 ≤ mv.1 ∧ mv.1 ≤ 127 ∧ 1 / 100 < mv.2 then mv else (-1, 0)

/-- The per-channel classifier of `updateFromAPU` (PianoVisualizer.cpp:116-169):
the `(midi_note, velocity)` pair ultimately passed to `processNoteChange`.
`period & 0x0F` is `period % 16` (`Int.emod`, which matches the
two's-complement low bits).  The melodic-silence branch (`continue`)
bypasses the final filter. -/
noncomputable def apuObs (ch : Fin 5) (period length amplitude : ℤ) : ℤ × ℝ :=
  let amp := |amplitude|
  if ch = 3 then
    -- Noise channel: map noise period (0-15) inversely to notes 36-51
    let noise_idx := period % 16
    apuFilter
      (if 0 < length ∧ 0 < amp then
        (36 + (15 - noise_idx), min 1 ((amp : ℝ) / 15))
      else (-1, 0))
  else if ch = 4 then
    -- DMC channel: fixed low note when active
    apuFilter
      (if 0 < length ∧ 0 < amp then (28, min 1 ((amp : ℝ) / 127)) else (-1, 0))
  else if length = 0 ∨ amp = 0 ∨ period < 8 then
    -- Note off (period < 8 produces ultrasonic frequencies); `continue`
    (-1, 0)
  else
    let freq := NES_CPU_CLOCK / (16 * ((period : ℝ) + 1))
    let max_amp : ℝ := if ch = 2 then 15 else 15
    apuFilter (frequencyToMidi freq, min 1 ((amp : ℝ) / max_amp))

/-- `PianoVisualizer::updateFromAPU` (PianoVisualizer.cpp:116-171). -/
noncomputable def updateFromAPU (periods lengths amplitudes : Fin 5 → ℤ)
    (current_time : ℝ) (s : PVState) : PVState :=
  channelOrder.foldl
    (fun st ch =>
      processNoteChange st ch
        (apuObs ch (periods ch) (lengths ch) (amplitudes ch)).1
        (apuObs ch (periods ch) (lengths ch) (amplitudes ch)).2
        current_time)
    s

/-- The lag search range of `detectFrequency`:
`for (lag = min_lag; lag < max_lag; ++lag)` with
`min_lag = sample_rate/2000`, `max_lag = min(count/2, sample_rate/50)`. -/
def lagRange (count sample_rate : ℕ) : List ℕ :=
  List.range' (sample_rate / 2000)
    (min (count / 2) (sample_rate / 50) - sample_rate / 2000)

/-- `correlation` accumulated over the overlapping region for a lag. -/
noncomputable def corrSum (samples : ℕ → ℝ) (count lag : ℕ) : ℝ :=
  ∑ i in Finset.range (count - lag), samples i * samples (i + lag)

/-- `energy1` accumulated over the overlapping region for a lag. -/
noncomputable def energy1 (samples : ℕ → ℝ) (count lag : ℕ) : ℝ :=
  ∑ i in Finset.range (count - lag), samples i * samples i

/-- `energy2` accumulated over the overlapping region for a lag. -/
noncomputable def energy2 (samples : ℕ → ℝ) (count lag : ℕ) : ℝ :=
  ∑ i in Finset.range (count - lag), samples (i + lag) * samples (i + lag)

/-- The normalized autocorrelation
`correlation / sqrt(energy1 * energy2)` at a given lag. -/
noncomputable def normCorr (samples : ℕ → ℝ) (count lag : ℕ) : ℝ :=
  corrSum samples count lag /
    Real.sqrt (energy1 samples count lag * energy2 samples count lag)

/-- One iteration of the lag loop of `detectFrequency`, updating
`(best_correlation, best_lag)`. -/
noncomputable def acStep (samples : ℕ → ℝ) (count : ℕ) (b : ℝ × ℕ) (lag : ℕ) :
    ℝ × ℕ :=
  if 0 < energy1 samples count lag ∧ 0 < energy2 samples count lag then
    if b.1 < normCorr samples count lag then (normCorr samples count lag, lag)
    else b
  else b

/-- The `(best_correlation, best_lag)` pair computed by the lag loop of
`detectFrequency`, starting from `(0, 0)`. -/
noncomputable def acBest (samples : ℕ → ℝ) (count sample_rate : ℕ) : ℝ × ℕ :=
  (lagRange count sample_rate).foldl (acStep samples count) (0, 0)

/-- `PianoVisualizer::detectFrequency` (PianoVisualizer.cpp:173-209). -/
noncomputable def detectFrequency (samples : ℕ → ℝ) (count sample_rate : ℕ) : ℝ :=
  if count < 64 then 0
  else if 1 / 2 < (acBest samples count sample_rate).1 ∧
      0 < (acBest samples count sample_rate).2 then
    (sample_rate : ℝ) / ((acBest samples count sample_rate).2 : ℝ)
  else 0

/-- `PianoVisualizer::updateFromAudio` (PianoVisualizer.cpp:211-251).
The sample pointer is `Option`-valued (`none` = null pointer). -/
noncomputable def updateFromAudio (samples : Option (ℕ → ℤ)) (sample_count : ℕ)
    (sample_rate : ℕ) (current_time : ℝ) (s : PVState) : PVState :=
  match samples with
  | none => s
  | some smp =>
    if sample_count < 128 then s
    else
      let mono_count := sample_count / 2
      let mono : ℕ → ℝ := fun i =>
        ((smp (i * 2) : ℝ) / 32768 + (smp (i * 2 + 1) : ℝ) / 32768) * (1 / 2)
      let rms := Real.sqrt
        ((∑ i in Finset.range mono_count, mono i * mono i) / (mono_count : ℝ))
      let freq := detectFrequency mono mono_count sample_rate
      let midi_note := frequencyToMidi freq
      let s1 := processNoteChange s 2 midi_note (rms * 3) current_time
      -- decay loop for the channels other than triangle (ch 2)
      { s1 with
        current_notes := fun ch =>
          if ch = 2 then s1.current_notes ch
          else
            let cs := s1.current_notes ch
            let v := cs.velocity * (9 / 10)
            { cs with
              velocity := v
              active := if v < VEL_THRESHOLD then false else cs.active } }

/-- The public mutating operations of the visualizer (the three update
entry points and `reset`), for stating state-machine invariants over
arbitrary call sequences. -/
inductive Cmd
  | apu (periods lengths amplitudes : Fin 5 → ℤ) (t : ℝ)
  | freqs (frequencies amplitudes : Fin 5 → ℝ) (t : ℝ)
  | audio (samples : Option (ℕ → ℤ)) (sample_count sample_rate : ℕ) (t : ℝ)
  | reset

/-- Run one public operation. -/
noncomputable def applyCmd (s : PVState) : Cmd → PVState
  | .apu p l a t => updateFromAPU p l a t s
  | .freqs f a t => updateFromFrequencies f a t s
  | .audio smp c sr t => updateFromAudio smp c sr t s
  | .reset => resetState

/-- Run a sequence of public operations from the freshly-constructed state. -/
noncomputable def runCmds (cmds : List Cmd) : PVState :=
  cmds.foldl applyCmd resetState

/-! ### Concrete runs used in counterexamples and scenario checks -/

/-- Three classifier observations on channel 0: note 60 at velocity 0.5,
then note 60 again at velocity 0.02 (≤ the 0.05 threshold), then note 62
at velocity 0.5. -/
noncomputable def c1run : PVState :=
  processNoteChange
    (processNoteChange (processNoteChange resetState 0 60 (1 / 2) 0) 0 60 (1 / 50) 1)
    0 62 (1 / 2) 2

/-- The pitch-glide scenario: notes 60, 61, 62 on consecutive ticks at
sustained velocity 0.5, then silence. -/
noncomputable def glideRun : PVState :=
  processNoteChange
    (processNoteChange
      (processNoteChange (processNoteChange resetState 0 60 (1 / 2) 0) 0 61 (1 / 2) 1)
      0 62 (1 / 2) 2)
    0 (-1) 0 3

/-- The long-sustained open event of channel 0 used in the eviction run. -/
noncomputable def eventA : NoteEvent := ⟨0, 100, 1 / 2, 0, 0, true⟩

/-- The churn event repeatedly opened on channel 1 in the eviction run. -/
noncomputable def eventB : NoteEvent := ⟨1, 50, 1 / 2, 0, 0, true⟩

/-- Open `eventA` on channel 0 from the fresh state. -/
noncomputable def churnA : PVState := processNoteChange resetState 0 100 (1 / 2) 0

/-- One churn pair on channel 1: a tick opening note 50 at velocity 0.5
followed by a tick reporting note 50 at velocity 0 (which, because the
note is unchanged, leaves the just-opened event dangling open and resets
the tracked previous note). -/
noncomputable def pairTick (s : PVState) : PVState :=
  processNoteChange (processNoteChange s 1 50 (1 / 2) 0) 1 50 0 0

/-- Closed form of the state after `eventA` plus `k` churn pairs
(valid while no eviction has happened, i.e. `k + 1 ≤ 2000`). -/
noncomputable def churnState (k : ℕ) : PVState where
  piano_roll_notes := eventA :: List.replicate k eventB
  prev_midi_notes := Function.update (fun _ => -1) 0 100
  note_start_times := fun _ => 0
  current_notes :=
    Function.update
      (Function.update (fun i => ⟨i, 0, 0, false⟩) 0 ⟨0, 100, 1 / 2, true⟩) 1
      (if k = 0 then ⟨1, 0, 0, false⟩ else ⟨1, 50, 0, false⟩)

/-! ## General lemmas about the embedding -/

theorem closeFirst_length (l : List NoteEvent) (ch : Fin 5) (pn : ℤ) (t : ℝ) :
    (closeFirst l ch pn t).length = l.length := by
  induction l with
  | nil => rfl
  | cons e rest ih =>
    by_cases h : e.channel = ch ∧ e.midi_note = pn ∧ e.active = true
    · simp [closeFirst, if_pos h]
    · simp [closeFirst, if_neg h, ih]

theorem closePhase_length (s : PVState) (ch : Fin 5) (n : ℤ) (t : ℝ) :
    (closePhase s ch n t).length = s.piano_roll_notes.length := by
  unfold closePhase
  split
  · exact closeFirst_length ..
  · rfl

theorem evictOld_length_le (l : List NoteEvent) :
    (evictOld l).length ≤ MAX_ROLL_NOTES := by
  simp only [evictOld, List.length_drop]
  omega

theorem evictOld_eq_self (l : List NoteEvent) (h : l.length ≤ MAX_ROLL_NOTES) :
    evictOld l = l := by
  simp only [evictOld, Nat.sub_eq_zero_of_le h, List.drop_zero]

theorem evictOld_concat_getLast? (l : List NoteEvent) (e : NoteEvent) :
    (evictOld (l ++ [e])).getLast? = some e := by
  unfold evictOld
  rw [List.drop_append_of_le_length
      (by simp only [List.length_append, List.length_singleton, MAX_ROLL_NOTES]; omega),
    List.getLast?_concat]

/-- Ticks of other channels do not touch a channel's `ChannelState`. -/
theorem processNoteChange_current_notes_other (s : PVState) (ch ch' : Fin 5)
    (n : ℤ) (v t : ℝ) (h : ch ≠ ch') :
    (processNoteChange s ch' n v t).current_notes ch = s.current_notes ch := by
  simp [processNoteChange, Function.update_noteq h]

/-- The tracked previous note after a tick on the same channel. -/
theorem processNoteChange_prev (s : PVState) (ch : Fin 5) (n : ℤ) (v t : ℝ) :
    (processNoteChange s ch n v t).prev_midi_notes ch =
      if VEL_THRESHOLD < v then n else -1 := by
  simp [processNoteChange]

/-- Ticks of other channels do not touch a channel's tracked previous note. -/
theorem processNoteChange_prev_other (s : PVState) (ch ch' : Fin 5)
    (n : ℤ) (v t : ℝ) (h : ch ≠ ch') :
    (processNoteChange s ch' n v t).prev_midi_notes ch = s.prev_midi_notes ch := by
  simp [processNoteChange, Function.update_noteq h]

/-- A tick writes the observed `(note, velocity)` and the thresholded
active flag into the channel's `ChannelState`. -/
theorem processNoteChange_current_notes_self (s : PVState) (ch : Fin 5)
    (n : ℤ) (v t : ℝ) :
    (processNoteChange s ch n v t).current_notes ch =
      ⟨ch, n, v, if 0 ≤ n ∧ VEL_THRESHOLD < v then true else false⟩ := by
  simp [processNoteChange]

/-- Folding per-channel ticks over channels not containing `ch` leaves
channel `ch`'s `ChannelState` unchanged. -/
theorem foldl_processNoteChange_current_notes (L : List (Fin 5)) (s : PVState)
    (obs : Fin 5 → ℤ × ℝ) (t : ℝ) (ch : Fin 5) (hnot : ch ∉ L) :
    ((L.foldl (fun st c => processNoteChange st c (obs c).1 (obs c).2 t)
        s).current_notes ch) = s.current_notes ch := by
  induction L generalizing s with
  | nil => rfl
  | cons c rest ih =>
    simp only [List.foldl_cons]
    rw [ih _ (fun h => hnot (by simp [h]))]
    exact processNoteChange_current_notes_other _ _ _ _ _ _
      (fun h => hnot (by simp [h]))

/-- The log produced by `processNoteChange`, split by whether a new event
is pushed. -/
theorem processNoteChange_log (s : PVState) (ch : Fin 5) (n : ℤ) (v t : ℝ) :
    (processNoteChange s ch n v t).piano_roll_notes =
      if 0 ≤ n ∧ VEL_THRESHOLD < v ∧ n ≠ s.prev_midi_notes ch then
        evictOld (closePhase s ch n t ++ [⟨ch, n, v, t, 0, true⟩])
      else closePhase s ch n t := rfl

/-- The previous-note tracking array after a tick, as a function. -/
theorem processNoteChange_prev_fun (s : PVState) (ch : Fin 5) (n : ℤ) (v t : ℝ) :
    (processNoteChange s ch n v t).prev_midi_notes =
      Function.update s.prev_midi_notes ch
        (if VEL_THRESHOLD < v then n else -1) := rfl

/-- The ChannelState array after a tick, as a function. -/
theorem processNoteChange_cn_fun (s : PVState) (ch : Fin 5) (n : ℤ) (v t : ℝ) :
    (processNoteChange s ch n v t).current_notes =
      Function.update s.current_notes ch
        ⟨ch, n, v, if 0 ≤ n ∧ VEL_THRESHOLD < v then true else false⟩ := rfl

/-- The note-start-time array after a tick. -/
theorem processNoteChange_nst (s : PVState) (ch : Fin 5) (n : ℤ) (v t : ℝ) :
    (processNoteChange s ch n v t).note_start_times =
      if 0 ≤ n ∧ VEL_THRESHOLD < v ∧ n ≠ s.prev_midi_notes ch then
        Function.update s.note_start_times ch t
      else s.note_start_times := rfl

theorem processNoteChange_log_le (s : PVState) (ch : Fin 5) (n : ℤ) (v t : ℝ)
    (h : s.piano_roll_notes.length ≤ MAX_ROLL_NOTES) :
    (processNoteChange s ch n v t).piano_roll_notes.length ≤ MAX_ROLL_NOTES := by
  rw [processNoteChange_log]
  split
  · exact evictOld_length_le _
  · rw [closePhase_length]; exact h

/-! ## C10 -/

/-- C10: `updateFromAudio` called with a null sample pointer or with
`sample_count < 128` returns immediately without modifying any state:
the whole `PVState` (ChannelState array, previous-note tracking array,
note-start times and history log) is unchanged. -/
theorem C10_early_return (samples : Option (ℕ → ℤ)) (sample_count sample_rate : ℕ)
    (t : ℝ) (s : PVState) (h : samples = none ∨ sample_count < 128) :
    updateFromAudio samples sample_count sample_rate t s = s := by
  rcases h with h | h
  · subst h; rfl
  · cases samples with
    | none => rfl
    | some smp => simp [updateFromAudio, if_pos h]

/-- Witness for C10 at concrete inputs: a null pointer, and a non-null
pointer with only 100 samples. -/
theorem C10_early_return_witness :
    updateFromAudio none 4096 44100 0 resetState = resetState ∧
    updateFromAudio (some fun _ => 0) 100 44100 0 resetState = resetState :=
  ⟨C10_early_return none 4096 44100 0 resetState (Or.inl rfl),
   C10_early_return (some fun _ => 0) 100 44100 0 resetState (Or.inr (by norm_num))⟩

/-! ## C9 -/

/-- C9 counterexample: one tick on channel 0 reporting note 60 with
velocity 0.01 (≤ the 0.05 threshold) leaves the channel inactive, yet its
`ChannelState.midi_note` is 60, not the `-1` "none" sentinel — refuting
the claim that an inactive channel's note is the none sentinel. -/
theorem C9_inactive_keeps_note :
    ((processNoteChange resetState 0 60 (1 / 100) 0).current_notes 0).active = false ∧
    ((processNoteChange resetState 0 60 (1 / 100) 0).current_notes 0).midi_note = 60 := by
  constructor <;>
    norm_num [processNoteChange, resetState, VEL_THRESHOLD]

/-- C9 (amended): after a `processNoteChange` tick with observation
`(n, v)` on a channel, the `ChannelState` stores the observed note and
velocity verbatim (the none sentinel is *not* written back on silence),
its `active` flag is true exactly when `n ≥ 0` and `v` is strictly above
the 0.05 threshold, and whenever the tick opens an event (`n ≥ 0`,
`v > 0.05`, `n` different from the tracked previous note) the newest
history-log entry is that channel's open event with note `n`. -/
theorem C9_channel_state (s : PVState) (ch : Fin 5) (n : ℤ) (v t : ℝ) :
    ((processNoteChange s ch n v t).current_notes ch).midi_note = n ∧
    ((processNoteChange s ch n v t).current_notes ch).velocity = v ∧
    (((processNoteChange s ch n v t).current_notes ch).active = true ↔
      0 ≤ n ∧ VEL_THRESHOLD < v) ∧
    (0 ≤ n → VEL_THRESHOLD < v → n ≠ s.prev_midi_notes ch →
      (processNoteChange s ch n v t).piano_roll_notes.getLast? =
        some ⟨ch, n, v, t, 0, true⟩) := by
  refine ⟨by simp [processNoteChange], by simp [processNoteChange], ?_, ?_⟩
  · simp only [processNoteChange, Function.update_same]
    split
    · simp_all
    · simp_all
  · intro hn hv hne
    rw [processNoteChange_log, if_pos ⟨hn, hv, hne⟩]
    exact evictOld_concat_getLast? ..

/-- Witness for C9 (amended) at a concrete input: a fresh state ticked on
channel 0 with note 60 and velocity 1/2. -/
theorem C9_channel_state_witness :
    (((processNoteChange resetState 0 60 (1 / 2) 0).current_notes 0).active = true) ∧
    ((processNoteChange resetState 0 60 (1 / 2) 0).piano_roll_notes.getLast? =
      some ⟨0, 60, 1 / 2, 0, 0, true⟩) := by
  have h := C9_channel_state resetState 0 60 (1 / 2) 0
  refine ⟨h.2.2.1.mpr ⟨by norm_num, ?_⟩, h.2.2.2 (by norm_num) ?_ ?_⟩
  · norm_num [VEL_THRESHOLD]
  · norm_num [VEL_THRESHOLD]
  · norm_num [resetState]

/-! ## C5 -/

/-- C5: `frequencyToMidi f` returns the `-1` "no note" sentinel for every
`f ≤ 0`; it returns the sentinel exactly when `f ≤ 0` or
`round(69 + 12·log2(f/440))` lies outside `[0,127]`; and otherwise it
returns `round(69 + 12·log2(f/440))` (with `round` the half-away-from-zero
rounding of `std::round`). -/
theorem C5_frequencyToMidi_sentinel (f : ℝ) :
    (f ≤ 0 → frequencyToMidi f = -1) ∧
    (frequencyToMidi f = -1 ↔
      f ≤ 0 ∨ cppRound (69 + 12 * Real.logb 2 (f / 440)) < 0 ∨
        127 < cppRound (69 + 12 * Real.logb 2 (f / 440))) ∧
    (0 < f → 0 ≤ cppRound (69 + 12 * Real.logb 2 (f / 440)) →
      cppRound (69 + 12 * Real.logb 2 (f / 440)) ≤ 127 →
      frequencyToMidi f = cppRound (69 + 12 * Real.logb 2 (f / 440))) := by
  have hmain : frequencyToMidi f =
      if f ≤ 0 then -1
      else if cppRound (69 + 12 * Real.logb 2 (f / 440)) < 0 ∨
          127 < cppRound (69 + 12 * Real.logb 2 (f / 440)) then -1
      else cppRound (69 + 12 * Real.logb 2 (f / 440)) := rfl
  refine ⟨fun h => by rw [hmain, if_pos h], ?_, fun h0 hlo hhi => ?_⟩
  · rw [hmain]
    by_cases hf : f ≤ 0
    · simp [hf]
    · rw [if_neg hf]
      by_cases hr : cppRound (69 + 12 * Real.logb 2 (f / 440)) < 0 ∨
          127 < cppRound (69 + 12 * Real.logb 2 (f / 440))
      · simp only [if_pos hr]
        exact ⟨fun _ => Or.inr hr, fun _ => trivial⟩
      · rw [if_neg hr]
        push_neg at hr
        obtain ⟨h1, h2⟩ := hr
        constructor
        · intro h; exact absurd h (by omega)
        · rintro (h | h | h)
          · exact absurd h hf
          · omega
          · omega
  · rw [hmain, if_neg (not_le.mpr h0), if_neg (by omega)]

/-- Witness for C5 at concrete inputs: a non-positive frequency and the
reference pitch 440 Hz (which quantizes to note 69). -/
theorem C5_frequencyToMidi_sentinel_witness :
    frequencyToMidi (-5) = -1 ∧ frequencyToMidi 440 = 69 := by
  have h440 : (69 : ℝ) + 12 * Real.logb 2 ((440 : ℝ) / 440) = 69 := by
    norm_num [Real.logb_one]
  have hr : cppRound ((69 : ℝ) + 12 * Real.logb 2 ((440 : ℝ) / 440)) = 69 := by
    rw [h440, cppRound, if_pos (by norm_num : (0 : ℝ) ≤ 69), Int.floor_eq_iff]
    constructor <;> norm_num
  refine ⟨(C5_frequencyToMidi_sentinel (-5)).1 (by norm_num), ?_⟩
  rw [(C5_frequencyToMidi_sentinel 440).2.2 (by norm_num)
      (by rw [hr]; norm_num) (by rw [hr]; norm_num), hr]

/-! ## C6 -/

/-- C6: for every integer note `n` in `[0,127]`,
`frequencyToMidi (midiToFrequency n) = n`, where `midiToFrequency`
computes the exact inverse relation `440·2^((n−69)/12)` (round-trip
exactness at exact semitone centers). -/
theorem C6_note_roundtrip (n : ℤ) (h0 : 0 ≤ n) (h127 : n ≤ 127) :
    frequencyToMidi (midiToFrequency n) = n := by
  have hpos : 0 < midiToFrequency n := by
    unfold midiToFrequency
    positivity
  have hlog : Real.logb 2 (midiToFrequency n / 440) = ((n : ℝ) - 69) / 12 := by
    unfold midiToFrequency
    rw [mul_comm, mul_div_assoc, div_self (by norm_num : (440 : ℝ) ≠ 0), mul_one]
    exact Real.logb_rpow (by norm_num) (by norm_num)
  have hval : (69 : ℝ) + 12 * Real.logb 2 (midiToFrequency n / 440) = (n : ℝ) := by
    rw [hlog]; ring
  have hround : cppRound (69 + 12 * Real.logb 2 (midiToFrequency n / 440)) = n := by
    rw [cppRound, hval, if_pos (by exact_mod_cast h0), Int.floor_eq_iff]
    constructor
    · linarith
    · linarith
  have hmain : frequencyToMidi (midiToFrequency n) =
      if midiToFrequency n ≤ 0 then -1
      else if cppRound (69 + 12 * Real.logb 2 (midiToFrequency n / 440)) < 0 ∨
          127 < cppRound (69 + 12 * Real.logb 2 (midiToFrequency n / 440)) then -1
      else cppRound (69 + 12 * Real.logb 2 (midiToFrequency n / 440)) := rfl
  rw [hmain, if_neg (not_le.mpr hpos), hround, if_neg (by omega)]

/-- Witness for C6 at the concrete note 69 (the 440 Hz reference). -/
theorem C6_note_roundtrip_witness :
    frequencyToMidi (midiToFrequency 69) = 69 :=
  C6_note_roundtrip 69 (by norm_num) (by norm_num)

/-! ## C1 -/

/-- C1 is violated by the code: feeding channel 0 the observations
(note 60, velocity 0.5), (note 60, velocity 0.02), (note 62, velocity 0.5)
leaves TWO active (open, `duration = 0`) NoteEvents for channel 0 in the
history log.  The low-velocity tick is *not* treated like "no note" by the
closing logic (`prev_note != new_midi_note` compares the raw reported
note), so the note-60 event is left dangling open, and the next onset
opens a second one. -/
theorem C1_two_open_events :
    c1run.piano_roll_notes =
      [⟨0, 60, 1 / 2, 0, 0, true⟩, ⟨0, 62, 1 / 2, 2, 0, true⟩] ∧
    c1run.piano_roll_notes.countP
      (fun e => decide (e.channel = 0) && e.active) = 2 := by
  have h1log : (processNoteChange resetState 0 60 (1 / 2) 0).piano_roll_notes =
      [⟨0, 60, 1 / 2, 0, 0, true⟩] := by
    rw [processNoteChange_log, if_pos]
    · norm_num [closePhase, resetState, evictOld, MAX_ROLL_NOTES]
    · norm_num [resetState, VEL_THRESHOLD]
  have h1prev : (processNoteChange resetState 0 60 (1 / 2) 0).prev_midi_notes 0 = 60 := by
    rw [processNoteChange_prev, if_pos]
    norm_num [VEL_THRESHOLD]
  have h2log : (processNoteChange (processNoteChange resetState 0 60 (1 / 2) 0)
      0 60 (1 / 50) 1).piano_roll_notes = [⟨0, 60, 1 / 2, 0, 0, true⟩] := by
    rw [processNoteChange_log, if_neg (by rw [h1prev]; norm_num [VEL_THRESHOLD])]
    simp only [closePhase]
    rw [if_neg (by rw [h1prev]; norm_num)]
    exact h1log
  have h2prev : (processNoteChange (processNoteChange resetState 0 60 (1 / 2) 0)
      0 60 (1 / 50) 1).prev_midi_notes 0 = -1 := by
    rw [processNoteChange_prev, if_neg]
    norm_num [VEL_THRESHOLD]
  have hlog : c1run.piano_roll_notes =
      [⟨0, 60, 1 / 2, 0, 0, true⟩, ⟨0, 62, 1 / 2, 2, 0, true⟩] := by
    unfold c1run
    rw [processNoteChange_log,
      if_pos ⟨by norm_num, by norm_num [VEL_THRESHOLD], by rw [h2prev]; norm_num⟩]
    simp only [closePhase]
    rw [if_neg (by rw [h2prev]; norm_num), h2log]
    norm_num [evictOld, MAX_ROLL_NOTES]
  refine ⟨hlog, ?_⟩
  rw [hlog]
  simp [List.countP_cons]

/-! ## C4 -/

/-- `closeFirst` closes exactly the first matching open event when the
log splits as `l1 ++ E :: l2` with no match in `l1` and `E` matching. -/
theorem closeFirst_append_first (l1 l2 : List NoteEvent) (E : NoteEvent)
    (ch : Fin 5) (pn : ℤ) (t : ℝ)
    (hl1 : ∀ e ∈ l1, ¬(e.channel = ch ∧ e.midi_note = pn ∧ e.active = true))
    (hE : E.channel = ch ∧ E.midi_note = pn ∧ E.active = true) :
    closeFirst (l1 ++ E :: l2) ch pn t =
      l1 ++ ({ E with active := false, duration := t - E.start_time } :: l2) := by
  induction l1 with
  | nil => simp [closeFirst, if_pos hE]
  | cons e rest ih =>
    have he := hl1 e (by simp)
    simp only [List.cons_append, closeFirst, if_neg he, List.append_eq]
    rw [ih (fun x hx => hl1 x (by simp [hx]))]

/-- C4: if a channel is in state Sounding(`n`) (tracked previous note `n ≥ 0`,
with the open event `E` for `n` in the log) and observes a different note
`m ≥ 0` at velocity above the 0.05 threshold, the tick closes `E`
(`active := false`, `duration = now − start_time`) and appends a new open
event for `m` in the same tick.  Consequently the glide 60, 61, 62 at
sustained velocity 0.5 (followed by silence) yields three separate closed
events of duration one tick each, never one merged event. -/
theorem C4_note_change :
    (∀ (s : PVState) (ch : Fin 5) (n m : ℤ) (v t : ℝ) (l1 l2 : List NoteEvent)
      (E : NoteEvent),
      s.prev_midi_notes ch = n → 0 ≤ n → 0 ≤ m → m ≠ n → VEL_THRESHOLD < v →
      s.piano_roll_notes = l1 ++ E :: l2 →
      E.channel = ch ∧ E.midi_note = n ∧ E.active = true →
      (∀ e ∈ l1, ¬(e.channel = ch ∧ e.midi_note = n ∧ e.active = true)) →
      s.piano_roll_notes.length < MAX_ROLL_NOTES →
      (processNoteChange s ch m v t).piano_roll_notes =
        (l1 ++ ({ E with active := false, duration := t - E.start_time } :: l2)) ++
          [⟨ch, m, v, t, 0, true⟩]) ∧
    glideRun.piano_roll_notes =
      [⟨0, 60, 1 / 2, 0, 1, false⟩, ⟨0, 61, 1 / 2, 1, 1, false⟩,
       ⟨0, 62, 1 / 2, 2, 1, false⟩] := by
  constructor
  · intro s ch n m v t l1 l2 E hprev hn hm hne hv hsplit hE hl1 hlen
    rw [processNoteChange_log, if_pos ⟨hm, hv, by rw [hprev]; exact hne⟩]
    have hclose : closePhase s ch m t =
        l1 ++ ({ E with active := false, duration := t - E.start_time } :: l2) := by
      simp only [closePhase]
      rw [if_pos ⟨by rw [hprev]; exact hn, by rw [hprev]; exact Ne.symm hne⟩,
        hprev, hsplit]
      exact closeFirst_append_first l1 l2 E ch n t hl1 hE
    rw [hclose]
    apply evictOld_eq_self
    rw [hsplit] at hlen
    simp only [List.length_append, List.length_cons, List.length_nil,
      List.length_singleton] at hlen ⊢
    omega
  · have h1log : (processNoteChange resetState 0 60 (1 / 2) 0).piano_roll_notes =
        [⟨0, 60, 1 / 2, 0, 0, true⟩] := by
      rw [processNoteChange_log, if_pos]
      · norm_num [closePhase, resetState, evictOld, MAX_ROLL_NOTES]
      · norm_num [resetState, VEL_THRESHOLD]
    have h1prev : (processNoteChange resetState 0 60 (1 / 2) 0).prev_midi_notes 0 =
        60 := by
      rw [processNoteChange_prev, if_pos]
      norm_num [VEL_THRESHOLD]
    have h2log : (processNoteChange (processNoteChange resetState 0 60 (1 / 2) 0)
        0 61 (1 / 2) 1).piano_roll_notes =
        [⟨0, 60, 1 / 2, 0, 1, false⟩, ⟨0, 61, 1 / 2, 1, 0, true⟩] := by
      rw [processNoteChange_log,
        if_pos ⟨by norm_num, by norm_num [VEL_THRESHOLD], by rw [h1prev]; norm_num⟩]
      simp only [closePhase]
      rw [if_pos ⟨by rw [h1prev]; norm_num, by rw [h1prev]; norm_num⟩, h1prev, h1log]
      norm_num [closeFirst, evictOld, MAX_ROLL_NOTES]
    have h2prev : (processNoteChange (processNoteChange resetState 0 60 (1 / 2) 0)
        0 61 (1 / 2) 1).prev_midi_notes 0 = 61 := by
      rw [processNoteChange_prev, if_pos]
      norm_num [VEL_THRESHOLD]
    have h3log : (processNoteChange (processNoteChange
        (processNoteChange resetState 0 60 (1 / 2) 0) 0 61 (1 / 2) 1)
        0 62 (1 / 2) 2).piano_roll_notes =
        [⟨0, 60, 1 / 2, 0, 1, false⟩, ⟨0, 61, 1 / 2, 1, 1, false⟩,
         ⟨0, 62, 1 / 2, 2, 0, true⟩] := by
      rw [processNoteChange_log,
        if_pos ⟨by norm_num, by norm_num [VEL_THRESHOLD], by rw [h2prev]; norm_num⟩]
      simp only [closePhase]
      rw [if_pos ⟨by rw [h2prev]; norm_num, by rw [h2prev]; norm_num⟩, h2prev, h2log]
      norm_num [closeFirst, evictOld, MAX_ROLL_NOTES]
    have h3prev : (processNoteChange (processNoteChange
        (processNoteChange resetState 0 60 (1 / 2) 0) 0 61 (1 / 2) 1)
        0 62 (1 / 2) 2).prev_midi_notes 0 = 62 := by
      rw [processNoteChange_prev, if_pos]
      norm_num [VEL_THRESHOLD]
    unfold glideRun
    rw [processNoteChange_log, if_neg (by norm_num)]
    simp only [closePhase]
    rw [if_pos ⟨by rw [h3prev]; norm_num, by rw [h3prev]; norm_num⟩, h3prev, h3log]
    norm_num [closeFirst]

/-- Witness for the C4 transition rule at a concrete input: a fresh state
sounding note 60 on channel 0 observes note 62 at velocity 0.5. -/
theorem C4_note_change_witness :
    (processNoteChange (processNoteChange resetState 0 60 (1 / 2) 0)
      0 62 (1 / 2) 1).piano_roll_notes =
      [⟨0, 60, 1 / 2, 0, 1, false⟩, ⟨0, 62, 1 / 2, 1, 0, true⟩] := by
  have h1log : (processNoteChange resetState 0 60 (1 / 2) 0).piano_roll_notes =
      [⟨0, 60, 1 / 2, 0, 0, true⟩] := by
    rw [processNoteChange_log, if_pos]
    · norm_num [closePhase, resetState, evictOld, MAX_ROLL_NOTES]
    · norm_num [resetState, VEL_THRESHOLD]
  have h1prev : (processNoteChange resetState 0 60 (1 / 2) 0).prev_midi_notes 0 =
      60 := by
    rw [processNoteChange_prev, if_pos]
    norm_num [VEL_THRESHOLD]
  have h := C4_note_change.1 (processNoteChange resetState 0 60 (1 / 2) 0)
    0 60 62 (1 / 2) 1 [] [] ⟨0, 60, 1 / 2, 0, 0, true⟩
    h1prev (by norm_num) (by norm_num) (by norm_num)
    (by norm_num [VEL_THRESHOLD]) (by rw [h1log]; rfl)
    ⟨rfl, rfl, rfl⟩ (by simp) (by rw [h1log]; norm_num [MAX_ROLL_NOTES])
  rw [h]
  norm_num

/-! ## C7 -/

/-- The melodic-channel silence rule of `updateFromAPU`: for channels
0, 1, 2, a period below 8 (ultrasonic), a zero length counter or a zero
(absolute) amplitude yields the explicit mute observation `(-1, 0)`. -/
theorem apuObs_melodic_silent (ch : Fin 5) (period length amplitude : ℤ)
    (hch : ch = 0 ∨ ch = 1 ∨ ch = 2)
    (hsil : period < 8 ∨ length = 0 ∨ |amplitude| = 0) :
    apuObs ch period length amplitude = (-1, 0) := by
  have h3 : ¬ch = 3 := by rcases hch with h | h | h <;> subst h <;> decide
  have h4 : ¬ch = 4 := by rcases hch with h | h | h <;> subst h <;> decide
  simp only [apuObs, if_neg h3, if_neg h4]
  rw [if_pos]
  tauto

/-- C7: for every melodic channel (0 = square 1, 1 = square 2,
2 = triangle), if the period register is below the ultrasonic threshold 8
or the length or amplitude register is zero, the channel's classifier
observation is `(note = -1, velocity = 0)` and after `updateFromAPU` the
channel's `ChannelState` is the explicit mute `⟨ch, -1, 0, false⟩` —
including the case of an ultrasonic period with nonzero length and
amplitude. -/
theorem C7_melodic_mute (periods lengths amplitudes : Fin 5 → ℤ) (t : ℝ)
    (s : PVState) (ch : Fin 5) (hch : ch = 0 ∨ ch = 1 ∨ ch = 2)
    (hsil : periods ch < 8 ∨ lengths ch = 0 ∨ |amplitudes ch| = 0) :
    apuObs ch (periods ch) (lengths ch) (amplitudes ch) = (-1, 0) ∧
    (updateFromAPU periods lengths amplitudes t s).current_notes ch =
      ⟨ch, -1, 0, false⟩ := by
  have hobs := apuObs_melodic_silent ch _ _ _ hch hsil
  refine ⟨hobs, ?_⟩
  have hself : ∀ s' : PVState,
      (processNoteChange s' ch
        (apuObs ch (periods ch) (lengths ch) (amplitudes ch)).1
        (apuObs ch (periods ch) (lengths ch) (amplitudes ch)).2
        t).current_notes ch = ⟨ch, -1, 0, false⟩ := by
    intro s'
    rw [hobs, processNoteChange_current_notes_self]
    norm_num
  unfold updateFromAPU channelOrder
  simp only [List.foldl_cons, List.foldl_nil]
  rcases hch with h | h | h <;> subst h
  · rw [processNoteChange_current_notes_other _ _ _ _ _ _ (by decide : (0 : Fin 5) ≠ 4),
      processNoteChange_current_notes_other _ _ _ _ _ _ (by decide : (0 : Fin 5) ≠ 3),
      processNoteChange_current_notes_other _ _ _ _ _ _ (by decide : (0 : Fin 5) ≠ 2),
      processNoteChange_current_notes_other _ _ _ _ _ _ (by decide : (0 : Fin 5) ≠ 1)]
    exact hself s
  · rw [processNoteChange_current_notes_other _ _ _ _ _ _ (by decide : (1 : Fin 5) ≠ 4),
      processNoteChange_current_notes_other _ _ _ _ _ _ (by decide : (1 : Fin 5) ≠ 3),
      processNoteChange_current_notes_other _ _ _ _ _ _ (by decide : (1 : Fin 5) ≠ 2)]
    exact hself _
  · rw [processNoteChange_current_notes_other _ _ _ _ _ _ (by decide : (2 : Fin 5) ≠ 4),
      processNoteChange_current_notes_other _ _ _ _ _ _ (by decide : (2 : Fin 5) ≠ 3)]
    exact hself _

/-! ## C3 -/

/-- Folding per-channel ticks preserves the history-log bound. -/
theorem foldl_processNoteChange_log_le (L : List (Fin 5)) (s : PVState)
    (obs : Fin 5 → ℤ × ℝ) (t : ℝ)
    (h : s.piano_roll_notes.length ≤ MAX_ROLL_NOTES) :
    ((L.foldl (fun st c => processNoteChange st c (obs c).1 (obs c).2 t)
        s).piano_roll_notes.length) ≤ MAX_ROLL_NOTES := by
  induction L generalizing s with
  | nil => exact h
  | cons c rest ih => exact ih _ (processNoteChange_log_le _ _ _ _ _ h)

theorem updateFromAPU_log_le (periods lengths amplitudes : Fin 5 → ℤ) (t : ℝ)
    (s : PVState) (h : s.piano_roll_notes.length ≤ MAX_ROLL_NOTES) :
    (updateFromAPU periods lengths amplitudes t s).piano_roll_notes.length ≤
      MAX_ROLL_NOTES :=
  foldl_processNoteChange_log_le channelOrder s
    (fun c => apuObs c (periods c) (lengths c) (amplitudes c)) t h

theorem updateFromFrequencies_log_le (frequencies amplitudes : Fin 5 → ℝ)
    (t : ℝ) (s : PVState) (h : s.piano_roll_notes.length ≤ MAX_ROLL_NOTES) :
    (updateFromFrequencies frequencies amplitudes t s).piano_roll_notes.length ≤
      MAX_ROLL_NOTES :=
  foldl_processNoteChange_log_le channelOrder s
    (fun c => (frequencyToMidi (frequencies c), amplitudes c)) t h

theorem updateFromAudio_log_le (samples : Option (ℕ → ℤ)) (c sr : ℕ) (t : ℝ)
    (s : PVState) (h : s.piano_roll_notes.length ≤ MAX_ROLL_NOTES) :
    (updateFromAudio samples c sr t s).piano_roll_notes.length ≤
      MAX_ROLL_NOTES := by
  cases samples with
  | none => exact h
  | some smp =>
    simp only [updateFromAudio]
    by_cases hc : c < 128
    · rw [if_pos hc]; exact h
    · rw [if_neg hc]
      exact processNoteChange_log_le _ _ _ _ _ h

/-- C3: after any sequence of update ticks (`updateFromAPU`,
`updateFromFrequencies`, `updateFromAudio`) and resets, starting from the
freshly-constructed state, the history log's length is at most the fixed
maximum `MAX_ROLL_NOTES = 2000`. -/
theorem C3_history_bounded (cmds : List Cmd) :
    (runCmds cmds).piano_roll_notes.length ≤ MAX_ROLL_NOTES := by
  suffices h : ∀ s : PVState, s.piano_roll_notes.length ≤ MAX_ROLL_NOTES →
      (cmds.foldl applyCmd s).piano_roll_notes.length ≤ MAX_ROLL_NOTES by
    exact h resetState (by simp [resetState, MAX_ROLL_NOTES])
  induction cmds with
  | nil => exact fun s h => h
  | cons c rest ih =>
    intro s h
    rw [List.foldl_cons]
    refine ih _ ?_
    cases c with
    | apu p l a t => exact updateFromAPU_log_le p l a t s h
    | freqs f a t => exact updateFromFrequencies_log_le f a t s h
    | audio smp cnt sr t => exact updateFromAudio_log_le smp cnt sr t s h
    | reset => simp [applyCmd, resetState, MAX_ROLL_NOTES]

/-- Witness for C7 at a concrete input: all registers zero (period 0,
length 0, amplitude 0) on channel 0 from the fresh state. -/
theorem C7_melodic_mute_witness :
    apuObs 0 0 0 0 = (-1, 0) ∧
    (updateFromAPU (fun _ => 0) (fun _ => 0) (fun _ => 0) 0
      resetState).current_notes 0 = ⟨0, -1, 0, false⟩ :=
  C7_melodic_mute (fun _ => 0) (fun _ => 0) (fun _ => 0) 0 resetState 0
    (Or.inl rfl) (Or.inl (by norm_num))

/-! ## C2 -/

/-- C2 (amended): when a tick pushes a new event, the resulting log is the
close-phase log with the new event appended, with exactly the overflow
beyond capacity dropped from the front — the oldest entries, with no
regard to their `active` flag — and the resulting length is
`min (old length + 1) 2000`. -/
theorem C2_fifo_eviction (s : PVState) (ch : Fin 5) (n : ℤ) (v t : ℝ)
    (hn : 0 ≤ n) (hv : VEL_THRESHOLD < v) (hne : n ≠ s.prev_midi_notes ch) :
    (processNoteChange s ch n v t).piano_roll_notes =
      (closePhase s ch n t ++ [(⟨ch, n, v, t, 0, true⟩ : NoteEvent)]).drop
        (s.piano_roll_notes.length + 1 - MAX_ROLL_NOTES) ∧
    (processNoteChange s ch n v t).piano_roll_notes.length =
      min (s.piano_roll_notes.length + 1) MAX_ROLL_NOTES := by
  have hlen :
      (closePhase s ch n t ++ [(⟨ch, n, v, t, 0, true⟩ : NoteEvent)]).length =
        s.piano_roll_notes.length + 1 := by
    simp [closePhase_length]
  rw [processNoteChange_log, if_pos ⟨hn, hv, hne⟩]
  constructor
  · unfold evictOld
    rw [hlen]
  · simp only [evictOld, List.length_drop, hlen]
    omega

/-- Witness for C2 (amended) at a concrete input: the first onset from the
fresh state (no overflow, so nothing is dropped). -/
theorem C2_fifo_eviction_witness :
    (processNoteChange resetState 0 60 (1 / 2) 0).piano_roll_notes =
      (closePhase resetState 0 60 0 ++
        [(⟨0, 60, 1 / 2, 0, 0, true⟩ : NoteEvent)]).drop
        (resetState.piano_roll_notes.length + 1 - MAX_ROLL_NOTES) ∧
    (processNoteChange resetState 0 60 (1 / 2) 0).piano_roll_notes.length =
      min (resetState.piano_roll_notes.length + 1) MAX_ROLL_NOTES :=
  C2_fifo_eviction resetState 0 60 (1 / 2) 0 (by norm_num)
    (by norm_num [VEL_THRESHOLD]) (by norm_num [resetState])

/-- Projections of the closed-form churn state. -/
theorem churnState_log (k : ℕ) :
    (churnState k).piano_roll_notes = eventA :: List.replicate k eventB := rfl

theorem churnState_prev (k : ℕ) :
    (churnState k).prev_midi_notes =
      Function.update (fun _ => (-1 : ℤ)) 0 100 := rfl

theorem churnState_cn (k : ℕ) :
    (churnState k).current_notes =
      Function.update
        (Function.update (fun i => ⟨i, 0, 0, false⟩) 0 ⟨0, 100, 1 / 2, true⟩) 1
        (if k = 0 then ⟨1, 0, 0, false⟩ else ⟨1, 50, 0, false⟩) := rfl

theorem churnState_nst (k : ℕ) :
    (churnState k).note_start_times = fun _ => 0 := rfl

theorem churnState_prev_one (k : ℕ) :
    (churnState k).prev_midi_notes 1 = -1 := by
  rw [churnState_prev]
  simp [Function.update_apply, Fin.ext_iff]

/-- The fresh state after the first churn onset is `churnState 0`. -/
theorem churnA_eq : churnA = churnState 0 := by
  unfold churnA
  refine PVState.ext ?_ ?_ ?_ ?_
  · rw [processNoteChange_cn_fun, churnState_cn]
    funext i
    fin_cases i <;>
      norm_num [Function.update_apply, resetState, VEL_THRESHOLD, Fin.ext_iff]
  · rw [processNoteChange_log, churnState_log]
    rw [if_pos ⟨by norm_num, by norm_num [VEL_THRESHOLD], by norm_num [resetState]⟩]
    simp only [closePhase]
    rw [if_neg (by norm_num [resetState])]
    norm_num [resetState, evictOld, MAX_ROLL_NOTES, eventA, List.replicate_zero]
  · rw [processNoteChange_prev_fun, churnState_prev]
    funext i
    fin_cases i <;>
      norm_num [Function.update_apply, resetState, VEL_THRESHOLD, Fin.ext_iff]
  · rw [processNoteChange_nst, churnState_nst]
    rw [if_pos ⟨by norm_num, by norm_num [VEL_THRESHOLD], by norm_num [resetState]⟩]
    funext i
    fin_cases i <;> norm_num [Function.update_apply, resetState, Fin.ext_iff]

/-- Appending one more churn event to the closed-form log. -/
theorem churn_concat (k : ℕ) :
    (eventA :: List.replicate k eventB) ++ [(⟨1, 50, 1 / 2, 0, 0, true⟩ : NoteEvent)]
      = eventA :: List.replicate (k + 1) eventB := by
  rw [List.replicate_succ' k eventB]
  simp [eventB]

/-- One churn pair advances the closed-form state (while below capacity). -/
theorem pairTick_churnState (k : ℕ) (hk : k + 2 ≤ MAX_ROLL_NOTES) :
    pairTick (churnState k) = churnState (k + 1) := by
  have hprev1 := churnState_prev_one k
  have hT1 : processNoteChange (churnState k) 1 50 (1 / 2) 0 =
      { current_notes :=
          Function.update (churnState k).current_notes 1 ⟨1, 50, 1 / 2, true⟩
        piano_roll_notes := eventA :: List.replicate (k + 1) eventB
        prev_midi_notes := Function.update (churnState k).prev_midi_notes 1 50
        note_start_times :=
          Function.update (churnState k).note_start_times 1 0 } := by
    refine PVState.ext ?_ ?_ ?_ ?_
    · rw [processNoteChange_cn_fun]
      norm_num [VEL_THRESHOLD]
    · rw [processNoteChange_log,
        if_pos ⟨by norm_num, by norm_num [VEL_THRESHOLD], by rw [hprev1]; norm_num⟩]
      simp only [closePhase]
      rw [if_neg (by rw [hprev1]; norm_num)]
      rw [churnState_log, churn_concat, evictOld_eq_self]
      simp only [List.length_cons, List.length_replicate]
      exact hk
    · rw [processNoteChange_prev_fun]
      norm_num [VEL_THRESHOLD]
    · rw [processNoteChange_nst,
        if_pos ⟨by norm_num, by norm_num [VEL_THRESHOLD], by rw [hprev1]; norm_num⟩]
  unfold pairTick
  rw [hT1]
  have hprev50 :
      (Function.update (churnState k).prev_midi_notes 1 50 : Fin 5 → ℤ) 1 = 50 := by
    simp
  refine PVState.ext ?_ ?_ ?_ ?_
  · rw [processNoteChange_cn_fun, churnState_cn k, churnState_cn (k + 1)]
    funext i
    fin_cases i <;>
      norm_num [Function.update_apply, VEL_THRESHOLD, Fin.ext_iff]
  · rw [processNoteChange_log, if_neg (by norm_num [VEL_THRESHOLD])]
    simp only [closePhase]
    rw [if_neg (by simp [Function.update_apply])]
    rw [churnState_log]
  · rw [processNoteChange_prev_fun, if_neg (by norm_num [VEL_THRESHOLD]),
      churnState_prev k, churnState_prev (k + 1)]
    funext i
    fin_cases i <;> norm_num [Function.update_apply, Fin.ext_iff]
  · rw [processNoteChange_nst, if_neg (by norm_num [VEL_THRESHOLD]),
      churnState_nst k, churnState_nst (k + 1)]
    funext i
    fin_cases i <;> norm_num [Function.update_apply, Fin.ext_iff]

/-- Iterating churn pairs reaches the closed form (while below capacity). -/
theorem pairTick_iterate (k : ℕ) (hk : k ≤ MAX_ROLL_NOTES - 1) :
    pairTick^[k] churnA = churnState k := by
  induction k with
  | zero =>
    rw [Function.iterate_zero_apply]
    exact churnA_eq
  | succ k ih =>
    have hk' : k ≤ MAX_ROLL_NOTES - 1 := by omega
    rw [Function.iterate_succ_apply', ih hk']
    refine pairTick_churnState k ?_
    simp only [MAX_ROLL_NOTES] at hk ⊢
    omega

/-- C2 counterexample: fill the log to its capacity of 2000 with channel 0
holding one long-sustained OPEN event (`eventA`, at the front of the log)
plus 1999 churned channel-1 events; the next insertion then evicts
`eventA` — an event that is still open (`active`, `duration = 0`) and
still sounding (channel 0's `ChannelState` is active) — leaving no
channel-0 event in the log.  This refutes both "FIFO over closed events"
and "no channel's currently open event is ever evicted". -/
theorem C2_open_event_evicted :
    eventA ∈ (pairTick^[1999] churnA).piano_roll_notes ∧
    eventA.active = true ∧ eventA.duration = 0 ∧
    ((pairTick^[1999] churnA).current_notes 0).active = true ∧
    (∀ e ∈ (processNoteChange (pairTick^[1999] churnA)
        1 50 (1 / 2) 0).piano_roll_notes, e.channel ≠ 0) ∧
    (processNoteChange (pairTick^[1999] churnA)
        1 50 (1 / 2) 0).piano_roll_notes.length = MAX_ROLL_NOTES := by
  have hs := pairTick_iterate 1999 (by norm_num [MAX_ROLL_NOTES])
  have hprev1 := churnState_prev_one 1999
  have hfin : (processNoteChange (churnState 1999) 1 50 (1 / 2) 0).piano_roll_notes
      = List.replicate 2000 eventB := by
    rw [processNoteChange_log,
      if_pos ⟨by norm_num, by norm_num [VEL_THRESHOLD], by rw [hprev1]; norm_num⟩]
    simp only [closePhase]
    rw [if_neg (by rw [hprev1]; norm_num)]
    rw [churnState_log, churn_concat]
    unfold evictOld
    simp only [List.length_cons, List.length_replicate, MAX_ROLL_NOTES]
    norm_num
  rw [hs]
  refine ⟨?_, rfl, rfl, ?_, ?_, ?_⟩
  · rw [churnState_log]
    exact List.mem_cons_self _ _
  · rw [churnState_cn]
    norm_num [Function.update_apply, Fin.ext_iff]
  · intro e he
    rw [hfin] at he
    rw [List.eq_of_mem_replicate he]
    decide
  · rw [hfin, List.length_replicate]
    rfl

/-! ## C8 -/

/-- Each lag-loop iteration can only increase `best_correlation`. -/
theorem acStep_fst_le (samples : ℕ → ℝ) (count : ℕ) (b : ℝ × ℕ) (lag : ℕ) :
    b.1 ≤ (acStep samples count b lag).1 := by
  unfold acStep
  split_ifs with h1 h2
  · exact le_of_lt h2
  · exact le_refl _
  · exact le_refl _

theorem foldl_acStep_fst_mono (samples : ℕ → ℝ) (count : ℕ) (l : List ℕ)
    (b : ℝ × ℕ) : b.1 ≤ (l.foldl (acStep samples count) b).1 := by
  induction l generalizing b with
  | nil => exact le_refl _
  | cons a rest ih => exact le_trans (acStep_fst_le samples count b a) (ih _)

/-- The lag loop tracks the maximum: every lag examined with positive
energies has normalized correlation at most the final `best_correlation`. -/
theorem foldl_acStep_bound (samples : ℕ → ℝ) (count : ℕ) (l : List ℕ) :
    ∀ (b : ℝ × ℕ) (lag : ℕ), lag ∈ l →
      0 < energy1 samples count lag → 0 < energy2 samples count lag →
      normCorr samples count lag ≤ (l.foldl (acStep samples count) b).1 := by
  induction l with
  | nil => intro b lag h; cases h
  | cons a rest ih =>
    intro b lag hmem h1 h2
    rcases List.mem_cons.mp hmem with h | h
    · subst h
      rw [List.foldl_cons]
      refine le_trans ?_ (foldl_acStep_fst_mono samples count rest _)
      unfold acStep
      rw [if_pos ⟨h1, h2⟩]
      split_ifs with hlt
      · exact le_refl _
      · exact not_lt.mp hlt
    · rw [List.foldl_cons]
      exact ih _ lag h h1 h2

/-- The lag loop's result is either the untouched initial `(0, 0)` or a
pair attained at one of the lags examined. -/
theorem foldl_acStep_attain (samples : ℕ → ℝ) (count : ℕ) (l S : List ℕ)
    (hsub : ∀ x ∈ l, x ∈ S) :
    ∀ b : ℝ × ℕ,
      ((b.1 = 0 ∧ b.2 = 0) ∨
        (b.2 ∈ S ∧ 0 < energy1 samples count b.2 ∧
          0 < energy2 samples count b.2 ∧ normCorr samples count b.2 = b.1)) →
      (((l.foldl (acStep samples count) b).1 = 0 ∧
          (l.foldl (acStep samples count) b).2 = 0) ∨
        ((l.foldl (acStep samples count) b).2 ∈ S ∧
          0 < energy1 samples count (l.foldl (acStep samples count) b).2 ∧
          0 < energy2 samples count (l.foldl (acStep samples count) b).2 ∧
          normCorr samples count (l.foldl (acStep samples count) b).2 =
            (l.foldl (acStep samples count) b).1)) := by
  induction l with
  | nil => intro b hb; exact hb
  | cons a rest ih =>
    intro b hb
    rw [List.foldl_cons]
    refine ih (fun x hx => hsub x (by simp [hx])) _ ?_
    unfold acStep
    split_ifs with h1 h2
    · exact Or.inr ⟨hsub a (by simp), h1.1, h1.2, rfl⟩
    · exact hb
    · exact hb

/-- Membership in the searched lag list. -/
theorem mem_lagRange (count sample_rate lag : ℕ) :
    lag ∈ lagRange count sample_rate ↔
      sample_rate / 2000 ≤ lag ∧
        lag < min (count / 2) (sample_rate / 50) := by
  unfold lagRange
  rw [List.mem_range'_1]
  omega

/-- C8: `detectFrequency` returns 0 ("no pitch") whenever the window has
fewer than 64 samples; otherwise it searches exactly the lags from
`sample_rate/2000` up to (exclusive) `min(count/2, sample_rate/50)`, its
`best_correlation` bounds the normalized autocorrelation of every
searched lag with positive energies, and it returns
`sample_rate / best_lag` when that best correlation exceeds 0.5 (the
best pair then being attained at a searched lag) and 0 otherwise. -/
theorem C8_detectFrequency (samples : ℕ → ℝ) (count sample_rate : ℕ) :
    (count < 64 → detectFrequency samples count sample_rate = 0) ∧
    (∀ lag : ℕ, lag ∈ lagRange count sample_rate ↔
      sample_rate / 2000 ≤ lag ∧
        lag < min (count / 2) (sample_rate / 50)) ∧
    (∀ lag ∈ lagRange count sample_rate,
      0 < energy1 samples count lag → 0 < energy2 samples count lag →
      normCorr samples count lag ≤ (acBest samples count sample_rate).1) ∧
    (64 ≤ count → 1 / 2 < (acBest samples count sample_rate).1 →
      (acBest samples count sample_rate).2 ∈ lagRange count sample_rate ∧
      normCorr samples count (acBest samples count sample_rate).2 =
        (acBest samples count sample_rate).1 ∧
      detectFrequency samples count sample_rate =
        (sample_rate : ℝ) / ((acBest samples count sample_rate).2 : ℝ)) ∧
    (64 ≤ count → (acBest samples count sample_rate).1 ≤ 1 / 2 →
      detectFrequency samples count sample_rate = 0) := by
  refine ⟨?_, fun lag => mem_lagRange count sample_rate lag, ?_, ?_, ?_⟩
  · intro h
    unfold detectFrequency
    rw [if_pos h]
  · intro lag hmem h1 h2
    exact foldl_acStep_bound samples count _ _ lag hmem h1 h2
  · intro hcount hbest
    have hattain :
        ((acBest samples count sample_rate).1 = 0 ∧
          (acBest samples count sample_rate).2 = 0) ∨
        ((acBest samples count sample_rate).2 ∈ lagRange count sample_rate ∧
          0 < energy1 samples count (acBest samples count sample_rate).2 ∧
          0 < energy2 samples count (acBest samples count sample_rate).2 ∧
          normCorr samples count (acBest samples count sample_rate).2 =
            (acBest samples count sample_rate).1) :=
      foldl_acStep_attain samples count (lagRange count sample_rate)
        (lagRange count sample_rate) (fun x hx => hx) (0, 0) (Or.inl ⟨rfl, rfl⟩)
    rcases hattain with h | h
    · exfalso
      rw [h.1] at hbest
      norm_num at hbest
    · refine ⟨h.1, h.2.2.2, ?_⟩
      unfold detectFrequency
      rw [if_neg (Nat.not_lt.mpr hcount)]
      by_cases hz : 0 < (acBest samples count sample_rate).2
      · rw [if_pos ⟨hbest, hz⟩]
      · rw [if_neg (fun hc => hz hc.2)]
        rw [Nat.not_lt, Nat.le_zero] at hz
        rw [hz]
        norm_num
  · intro hcount hle
    unfold detectFrequency
    rw [if_neg (Nat.not_lt.mpr hcount),
      if_neg (fun hc => absurd hc.1 (not_lt.mpr hle))]

/-- Witness for C8 at a concrete input: a 10-sample window (below the
64-sample minimum) yields "no pitch". -/
theorem C8_detectFrequency_witness :
    detectFrequency (fun _ => 0) 10 44100 = 0 :=
  (C8_detectFrequency (fun _ => 0) 10 44100).1 (by norm_num)

end PianoViz
